import Mathlib

/-!
Shallow embedding of the Hakuba Valley resort-comparison pipeline
(`src/hakuba_resorts_app.py`): the resort-record parser
(`_parse_ski_resort_info`), the name normalizer and trail-count derivation
(`get_resort_info`), the resort merger (`_combine_resorts`), and the CSV
export encoder (`convert_to_csv`).

Modelling conventions:
* A pandas `DataFrame` of resort records is a `List Row`; the index of the
  frame (the resort name, possibly missing when the page yields no name
  text) is the `name` field of each row.
* Python `str.replace` (and the pandas `.str.replace` chain used for name
  clean-up, whose patterns contain no regex metacharacters) is `replaceAll`:
  a single left-to-right pass replacing non-overlapping occurrences.
* Python `int(...)` on the scraped digit strings is `intOfChars`
  (optional leading minus sign followed by decimal digits).
* Python floats are modelled as `Rat`; the arithmetic performed by the code
  (products, sums, divisions of the scraped values) is exact.
* Exceptions (`IndexError` from positional indexing, `ValueError` from
  `int`, `KeyError` from `.loc` with an absent label) become `Except`
  errors.
* The descending `sort_values` on the `area` column is modelled as a
  comparison sort (`List.insertionSort`) by the relation that the earlier
  row has the larger or equal area.
-/

deriving instance DecidableEq for Except

/-! ### Text utilities: Python `str.replace` and `int` -/

/-- Boolean test that `pat` is a prefix of `s` (plain structural recursion,
so that concrete evaluation works inside `decide`). -/
def startsWithChars : List Char → List Char → Bool
  | [], _ => true
  | _ :: _, [] => false
  | p :: ps, c :: cs => p = c && startsWithChars ps cs

/-- Boolean test that `pat` occurs as a contiguous substring of `s`. -/
def occursIn (pat : List Char) : List Char → Bool
  | [] => pat.isEmpty
  | c :: rest => startsWithChars pat (c :: rest) || occursIn pat rest

/-- Fuel-indexed worker for `replaceAll`; the fuel is an upper bound on the
length of the remaining text, so the recursion is structural and
kernel-reducible. -/
def replaceAllAux (pat repl : List Char) : Nat → List Char → List Char
  | _, [] => []
  | 0, s => s
  | fuel + 1, c :: rest =>
    if startsWithChars pat (c :: rest) && !pat.isEmpty then
      repl ++ replaceAllAux pat repl fuel (rest.drop (pat.length - 1))
    else
      c :: replaceAllAux pat repl fuel rest

/-- Python `s.replace(pat, repl)` for a non-empty literal `pat`: one
left-to-right pass replacing non-overlapping occurrences; the replacement
text is not rescanned. -/
def replaceAll (pat repl s : List Char) : List Char :=
  replaceAllAux pat repl s.length s

/-- Numeric value of a decimal digit character. -/
def digitVal (c : Char) : Option Nat :=
  if '0' ≤ c ∧ c ≤ '9' then some (c.toNat - '0'.toNat) else none

/-- Accumulating decimal evaluation of a digit string; fails on the first
non-digit character. -/
def natOfCharsAux : List Char → Nat → Option Nat
  | [], acc => some acc
  | c :: rest, acc =>
    match digitVal c with
    | some d => natOfCharsAux rest (acc * 10 + d)
    | none => none

/-- Python `int` on the scraped strings: an optional leading minus sign
followed by at least one decimal digit. -/
def intOfChars : List Char → Option Int
  | [] => none
  | '-' :: rest =>
    if rest.isEmpty then none
    else (natOfCharsAux rest 0).map fun n => -(n : Int)
  | s => (natOfCharsAux s 0).map fun n => (n : Int)

/-! ### Data model -/

/-- One `.spec-item` block of the source markup, as the CSS selectors in
`_parse_ski_resort_info` deliver it: the (possibly missing) name text, the
list of `dd` spec texts, the altitude texts, the course-level texts, and
the two optional links. -/
structure ResortBlock where
  name : Option String
  specs : List String
  elevation : List String
  levels : List String
  website : Option String
  trail_map : Option String
deriving DecidableEq

/-- The dictionary built for one resort by `_parse_ski_resort_info`. -/
structure ParsedRecord where
  name : Option String
  length : Int
  total_trails_length : Int
  area : Int
  gondolas : Int
  chairs : Int
  trails : Int
  max_elevation : Int
  base_elevation : Int
  vertical : Int
  beginner_pct : Rat
  intermediate_pct : Rat
  advanced_pct : Rat
  website : Option String
  trail_map : Option String
deriving DecidableEq

/-- One row of the table produced by `get_resort_info` (and consumed by
`_combine_resorts` / `convert_to_csv`): the parsed record together with the
three derived per-difficulty trail counts.  The `name` field is the index
of the frame. -/
structure Row where
  name : Option String
  length : Int
  total_trails_length : Int
  area : Int
  gondolas : Int
  chairs : Int
  trails : Int
  max_elevation : Int
  base_elevation : Int
  vertical : Int
  beginner_pct : Rat
  intermediate_pct : Rat
  advanced_pct : Rat
  website : Option String
  trail_map : Option String
  beginner_trails : Rat
  intermediate_trails : Rat
  advanced_trails : Rat
deriving DecidableEq

/-- A resort table: the rows of the DataFrame in index order. -/
abbrev Table := List Row

/-! ### Resort record parser (`_parse_ski_resort_info`) -/

/-- Errors of the extraction pipeline: `indexError` models the Python
`IndexError` from the hard positional-index contract, `valueError` models
the `ValueError` from `int` applied to a non-numeric string. -/
inductive ParseError
  | indexError
  | valueError
deriving DecidableEq

/-- Positional list access `l[i]`, raising `IndexError` when out of range. -/
def getIdx (l : List String) (i : Nat) : Except ParseError String :=
  match l[i]? with
  | some s => .ok s
  | none => .error .indexError

/-- Model of the Python idiom that strips every comma from the cell text
with `replace` and then converts with `int`. -/
def toIntStripped (s : String) : Except ParseError Int :=
  match intOfChars (replaceAll [','] [] s.toList) with
  | some n => .ok n
  | none => .error .valueError

/-- Python `int(s)` with no comma stripping (used for the course-level
percentages). -/
def toIntRaw (s : String) : Except ParseError Int :=
  match intOfChars s.toList with
  | some n => .ok n
  | none => .error .valueError

/-- The loop body of `_parse_ski_resort_info` for one resort block, with the
fields evaluated in the order the Python `dict(...)` call evaluates them:
`specs = ...getall()[0:6]` then `specs[0..5]` (comma-stripped, `int`),
`elevation[0]`, `elevation[2]`, `elevation[1]` (comma-stripped, `int`), and
`int(levels[0..2]) / 100.0`. -/
def parse_ski_resort_block (b : ResortBlock) : Except ParseError ParsedRecord := do
  let specs := b.specs.take 6
  let length ← toIntStripped (← getIdx specs 0)
  let total_trails_length ← toIntStripped (← getIdx specs 1)
  let area ← toIntStripped (← getIdx specs 2)
  let gondolas ← toIntStripped (← getIdx specs 3)
  let chairs ← toIntStripped (← getIdx specs 4)
  let trails ← toIntStripped (← getIdx specs 5)
  let max_elevation ← toIntStripped (← getIdx b.elevation 0)
  let base_elevation ← toIntStripped (← getIdx b.elevation 2)
  let vertical ← toIntStripped (← getIdx b.elevation 1)
  let beginner ← toIntRaw (← getIdx b.levels 0)
  let intermediate ← toIntRaw (← getIdx b.levels 1)
  let advanced ← toIntRaw (← getIdx b.levels 2)
  return { name := b.name
           length := length
           total_trails_length := total_trails_length
           area := area
           gondolas := gondolas
           chairs := chairs
           trails := trails
           max_elevation := max_elevation
           base_elevation := base_elevation
           vertical := vertical
           beginner_pct := (beginner : Rat) / 100
           intermediate_pct := (intermediate : Rat) / 100
           advanced_pct := (advanced : Rat) / 100
           website := b.website
           trail_map := b.trail_map }

/-- Model of `_parse_ski_resort_info`: the loop over all `.spec-item`
blocks.  An exception raised for any block propagates and aborts the whole
parse (the strict policy of the original). -/
def parse_ski_resort_info : List ResortBlock → Except ParseError (List ParsedRecord)
  | [] => .ok []
  | b :: rest => do
    let r ← parse_ski_resort_block b
    let rs ← parse_ski_resort_info rest
    return r :: rs

/-! ### Name normalizer (the `.str.replace` chain in `get_resort_info`) -/

/-- The removal substrings of the name clean-up chain, in the exact order the
code applies them. -/
def removalPats : List (List Char) :=
  [" Snow Resort".toList, " Snow Field".toList, " Park".toList,
   " Resort".toList, " Mountain".toList, " Winter Sports".toList,
   "ABLE ".toList, "Hakuba ".toList]

/-- The name normalizer: remove each substring of `removalPats` in order,
then replace every remaining `"47"` with `"Hakuba 47"`. -/
def normalizeChars (s : List Char) : List Char :=
  replaceAll "47".toList "Hakuba 47".toList
    (removalPats.foldl (fun t pat => replaceAll pat [] t) s)

/-- String-level wrapper of `normalizeChars`. -/
def normalizeName (s : String) : String :=
  (normalizeChars s.toList).asString

/-! ### Derivation, sorting and `get_resort_info` -/

/-- The trail-count derivation (`.assign(beginner_trails=...)` etc.): turn a
parsed record into a table row by computing `pct * trails` for the three
difficulty classes. -/
def rowOfRecord (r : ParsedRecord) : Row :=
  { name := r.name
    length := r.length
    total_trails_length := r.total_trails_length
    area := r.area
    gondolas := r.gondolas
    chairs := r.chairs
    trails := r.trails
    max_elevation := r.max_elevation
    base_elevation := r.base_elevation
    vertical := r.vertical
    beginner_pct := r.beginner_pct
    intermediate_pct := r.intermediate_pct
    advanced_pct := r.advanced_pct
    website := r.website
    trail_map := r.trail_map
    beginner_trails := r.beginner_pct * (r.trails : Rat)
    intermediate_trails := r.intermediate_pct * (r.trails : Rat)
    advanced_trails := r.advanced_pct * (r.trails : Rat) }

/-- The sort relation of the descending `sort_values` on `area`: the
earlier row has the larger or equal area. -/
def areaRel (a b : Row) : Prop := b.area ≤ a.area

instance : DecidableRel areaRel :=
  fun a b => inferInstanceAs (Decidable (b.area ≤ a.area))

instance : IsTotal Row areaRel :=
  ⟨fun a b => Int.le_total b.area a.area⟩

instance : IsTrans Row areaRel :=
  ⟨fun _ _ _ h1 h2 => le_trans h2 h1⟩

/-- Model of `get_resort_info` after the network fetch: parse the blocks,
clean up the names, derive the per-difficulty trail counts, set the name as
the index, and sort by `area` descending. -/
def get_resort_info (blocks : List ResortBlock) : Except ParseError Table :=
  match parse_ski_resort_info blocks with
  | .error e => .error e
  | .ok records =>
    let renamed := records.map fun r => { r with name := r.name.map normalizeName }
    let rows := renamed.map rowOfRecord
    .ok (List.insertionSort areaRel rows)

/-! ### Resort merger (`_combine_resorts`) -/

/-- The `KeyError` raised by the `.loc` selection of the two labels when
either label is absent (called `MissingResortError` by the spec). -/
inductive MergeError
  | missingResort
deriving DecidableEq

/-- All rows of the frame carrying the given index label (a `NaN` index never
matches a string label). -/
def rowsNamed (df : Table) (n : String) : Table :=
  df.filter fun r => r.name == some n

/-- Sum aggregation (`.agg`) over an integer column of the selected rows. -/
def sumOverInt (l : Table) (f : Row → Int) : Int :=
  (l.map f).foldl (· + ·) 0

/-- Sum aggregation (`.agg`) over a float column of the selected rows. -/
def sumOverRat (l : Table) (f : Row → Rat) : Rat :=
  (l.map f).foldl (· + ·) 0

/-- Max aggregation (`.agg`) over an integer column of the selected rows. -/
def maxOver (l : Table) (f : Row → Int) : Int :=
  match l.map f with
  | [] => 0
  | x :: xs => xs.foldl max x

/-- Min aggregation (`.agg`) over an integer column of the selected rows. -/
def minOver (l : Table) (f : Row → Int) : Int :=
  match l.map f with
  | [] => 0
  | x :: xs => xs.foldl min x

/-- The in-place row assignment `df.loc[label] = row`: overwrite every row
already carrying the label, or append the row when the label is new. -/
def setRow (df : Table) (n : String) (r : Row) : Table :=
  if df.any fun row => row.name == some n then
    df.map fun row => if row.name == some n then r else row
  else
    df ++ [r]

/-- The `combined` Series built inside `_combine_resorts` from the selected
constituent rows: the `.agg` dictionary (max / sum / min per column)
followed by the `vertical` and `*_pct` assignments.  The merged row carries
no `website` / `trail_map` values (the Series has no such entries, so the
row assignment leaves them as missing values). -/
def combinedSeries (sel : Table) : Row :=
  { name := some "Hakuba 47 + Goryu"
    length := maxOver sel (·.length)
    total_trails_length := sumOverInt sel (·.total_trails_length)
    area := sumOverInt sel (·.area)
    gondolas := sumOverInt sel (·.gondolas)
    chairs := sumOverInt sel (·.chairs)
    trails := sumOverInt sel (·.trails)
    max_elevation := maxOver sel (·.max_elevation)
    base_elevation := minOver sel (·.base_elevation)
    vertical := maxOver sel (·.max_elevation) - minOver sel (·.base_elevation)
    beginner_pct := sumOverRat sel (·.beginner_trails) / (sumOverInt sel (·.trails) : Rat)
    intermediate_pct := sumOverRat sel (·.intermediate_trails) / (sumOverInt sel (·.trails) : Rat)
    advanced_pct := sumOverRat sel (·.advanced_trails) / (sumOverInt sel (·.trails) : Rat)
    website := none
    trail_map := none
    beginner_trails := sumOverRat sel (·.beginner_trails)
    intermediate_trails := sumOverRat sel (·.intermediate_trails)
    advanced_trails := sumOverRat sel (·.advanced_trails) }

/-- Model of `_combine_resorts`.  The first component is the value the
function returns; the second is the caller-visible state of the argument
frame after the call: the in-place `.loc` row assignment of the combined
Series under the new label mutates the argument, while `astype` and `drop`
build new frames.  The `astype` step coercing the `gondolas` and `chairs`
columns back to integers truncates float sums; both columns hold integer
sums here, so it is the identity in the model.  The `drop` of the two
constituent labels is the filter removing their rows. -/
def combine_resorts (df : Table) (remove_parts_of_group : Bool := true) :
    Except MergeError Table × Table :=
  let goryu := rowsNamed df "Goryu"
  let h47 := rowsNamed df "Hakuba 47"
  if goryu.isEmpty || h47.isEmpty then
    (.error .missingResort, df)
  else
    let sel := goryu ++ h47
    let combined := combinedSeries sel
    let dfAfter := setRow df "Hakuba 47 + Goryu" combined
    let result :=
      if remove_parts_of_group then
        dfAfter.filter fun r => !(r.name == some "Hakuba 47" || r.name == some "Goryu")
      else
        dfAfter
    (.ok (List.insertionSort areaRel result), dfAfter)

/-! ### CSV export encoder (`convert_to_csv`) -/

/-- Fuel-indexed decimal digit expansion (most significant digit first). -/
def natDigitsAux : Nat → Nat → List Char
  | 0, _ => []
  | fuel + 1, n =>
    if n < 10 then [Nat.digitChar n]
    else natDigitsAux fuel (n / 10) ++ [Nat.digitChar (n % 10)]

/-- Decimal rendering of a natural number. -/
def natDigits (n : Nat) : List Char :=
  natDigitsAux (n + 1) n

/-- Textual rendering of an integer cell. -/
def intChars (i : Int) : List Char :=
  if i < 0 then '-' :: natDigits i.natAbs else natDigits i.natAbs

/-- Textual rendering of a numeric (float, modelled as `Rat`) cell. -/
def ratChars (q : Rat) : List Char :=
  intChars q.num ++ '/' :: natDigits q.den

/-- Textual rendering of an optional string cell (pandas writes a missing
value as the empty field). -/
def optStr : Option String → List Char
  | some s => s.toList
  | none => []

/-- The cells of one CSV data line: the index (the resort name) first, then
the columns in the frame's column order. -/
def rowCells (r : Row) : List (List Char) :=
  [optStr r.name, intChars r.length, intChars r.total_trails_length,
   intChars r.area, intChars r.gondolas, intChars r.chairs, intChars r.trails,
   intChars r.max_elevation, intChars r.base_elevation, intChars r.vertical,
   ratChars r.beginner_pct, ratChars r.intermediate_pct, ratChars r.advanced_pct,
   optStr r.website, optStr r.trail_map,
   ratChars r.beginner_trails, ratChars r.intermediate_trails, ratChars r.advanced_trails]

/-- Interpose a separator character between the parts. -/
def joinWith (sep : Char) : List (List Char) → List Char
  | [] => []
  | [x] => x
  | x :: y :: rest => x ++ sep :: joinWith sep (y :: rest)

/-- The header line written by `df.to_csv`: the index name followed by the
column labels. -/
def csvHeader : List Char :=
  ("name,length,total_trails_length,area,gondolas,chairs,trails," ++
   "max_elevation,base_elevation,vertical," ++
   "beginner_pct,intermediate_pct,advanced_pct,website,trail_map," ++
   "beginner_trails,intermediate_trails,advanced_trails").toList

/-- One CSV data line. -/
def csvLine (r : Row) : List Char :=
  joinWith ',' (rowCells r)

/-- Model of `convert_to_csv`: the UTF-8 text written by the pandas
`to_csv` call — the header line, one line per row in frame order, every
line terminated by a newline. -/
def convert_to_csv (df : Table) : List Char :=
  joinWith '\n' ((csvHeader :: df.map csvLine) ++ [[]])

/-- Split a text on a separator character (inverse of `joinWith` for
separator-free parts). -/
def splitOnChar (sep : Char) : List Char → List (List Char)
  | [] => [[]]
  | c :: rest =>
    match splitOnChar sep rest with
    | [] => [[]]
    | part :: parts =>
      if c = sep then [] :: part :: parts else (c :: part) :: parts

/-- Decode the CSV text back into data lines: split on newlines, discard the
final empty chunk produced by the trailing newline, and discard the header
line. -/
def decodeCsvRows (csv : List Char) : List (List Char) :=
  ((splitOnChar '\n' csv).dropLast).drop 1

/-- The name column of the decoded CSV: the first comma-separated field of
each data line. -/
def decodeCsvNames (csv : List Char) : List (List Char) :=
  (decodeCsvRows csv).map fun line => (splitOnChar ',' line).headD []
/-! ### Concrete fixtures used by witnesses and counterexamples -/

/-- A well-formed Goryu block, with thousands separators and surplus
entries. -/
def blockGoryu : ResortBlock :=
  { name := some "Hakuba Goryu Snow Resort"
    specs := ["5,000", "20,000", "100", "2", "3", "10", "ignored"]
    elevation := ["1,000", "800", "200", "ignored"]
    levels := ["50", "30", "20", "ignored"]
    website := some "https://example.com/goryu"
    trail_map := some "https://example.com/goryu-map" }

/-- A block whose elevation list does not satisfy
`elevation[1] = elevation[0] - elevation[2]`. -/
def blockBadVertical : ResortBlock :=
  { name := some "X"
    specs := ["1000", "2000", "30", "4", "5", "6"]
    elevation := ["1000", "500", "200"]
    levels := ["50", "30", "20"]
    website := none
    trail_map := none }

/-- A block with only four spec values. -/
def blockShortSpecs : ResortBlock :=
  { name := some "Y"
    specs := ["1", "2", "3", "4"]
    elevation := ["1000", "800", "200"]
    levels := ["50", "30", "20"]
    website := none
    trail_map := none }

/-- The concrete Goryu row of the spec fixture (area=100, trails=10,
max_elevation=1000, base_elevation=200, pcts 0.5/0.3/0.2, gondolas=2,
chairs=3). -/
def rowGoryu : Row :=
  { name := some "Goryu"
    length := 5000, total_trails_length := 20000, area := 100,
    gondolas := 2, chairs := 3, trails := 10,
    max_elevation := 1000, base_elevation := 200, vertical := 800,
    beginner_pct := 1/2, intermediate_pct := 3/10, advanced_pct := 1/5,
    website := some "https://example.com/goryu"
    trail_map := some "https://example.com/goryu-map"
    beginner_trails := 5, intermediate_trails := 3, advanced_trails := 2 }

/-- The concrete Hakuba 47 row of the spec fixture (area=50, trails=5,
max_elevation=900, base_elevation=300, pcts 0.4/0.4/0.2, gondolas=1,
chairs=2). -/
def rowH47 : Row :=
  { name := some "Hakuba 47"
    length := 4000, total_trails_length := 15000, area := 50,
    gondolas := 1, chairs := 2, trails := 5,
    max_elevation := 900, base_elevation := 300, vertical := 600,
    beginner_pct := 2/5, intermediate_pct := 2/5, advanced_pct := 1/5,
    website := none, trail_map := none
    beginner_trails := 2, intermediate_trails := 2, advanced_trails := 1 }

/-- The two-row fixture table of the spec. -/
def fixtureTable : Table := [rowGoryu, rowH47]

/-- The record parsed from `blockGoryu` (pipeline input fixture). -/
def recordGoryu : ParsedRecord :=
  { name := some "Hakuba Goryu Snow Resort"
    length := 5000, total_trails_length := 20000, area := 100,
    gondolas := 2, chairs := 3, trails := 10,
    max_elevation := 1000, base_elevation := 200, vertical := 800,
    beginner_pct := ((50 : Int) : Rat) / 100,
    intermediate_pct := ((30 : Int) : Rat) / 100,
    advanced_pct := ((20 : Int) : Rat) / 100,
    website := some "https://example.com/goryu"
    trail_map := some "https://example.com/goryu-map" }

/-! ### Except-monad helper lemmas -/

theorem exceptBind_eq_ok {ε α β : Type} {x : Except ε α} {f : α → Except ε β} {b : β} :
    x >>= f = .ok b ↔ ∃ a, x = .ok a ∧ f a = .ok b := by
  cases x with
  | error e => simp [Bind.bind, Except.bind]
  | ok a => simp [Bind.bind, Except.bind]

theorem exceptPure_eq_ok {ε α : Type} {a b : α} :
    (pure a : Except ε α) = .ok b ↔ a = b := by
  simp [pure, Except.pure]

theorem getIdx_ok_iff {l : List String} {i : Nat} {s : String} :
    getIdx l i = .ok s ↔ l[i]? = some s := by
  unfold getIdx
  cases h : l[i]? <;> simp

theorem getIdx_ok_lt {l : List String} {i : Nat} {s : String}
    (h : getIdx l i = .ok s) : i < l.length := by
  by_contra hlt
  have hnone : l[i]? = none := List.getElem?_eq_none (by omega)
  rw [getIdx_ok_iff, hnone] at h
  exact absurd h (by simp)

/-! ### Parser lemmas -/

theorem parse_block_eval (nm w t : Option String) (s0 s1 s2 s3 s4 s5 : String)
    (srest : List String) (e0 e1 e2 : String) (erest : List String)
    (l0 l1 l2 : String) (lrest : List String)
    (v0 v1 v2 v3 v4 v5 m0 m1 m2 p0 p1 p2 : Int)
    (h0 : toIntStripped s0 = .ok v0) (h1 : toIntStripped s1 = .ok v1)
    (h2 : toIntStripped s2 = .ok v2) (h3 : toIntStripped s3 = .ok v3)
    (h4 : toIntStripped s4 = .ok v4) (h5 : toIntStripped s5 = .ok v5)
    (he0 : toIntStripped e0 = .ok m0) (he1 : toIntStripped e1 = .ok m1)
    (he2 : toIntStripped e2 = .ok m2)
    (hl0 : toIntRaw l0 = .ok p0) (hl1 : toIntRaw l1 = .ok p1)
    (hl2 : toIntRaw l2 = .ok p2) :
    parse_ski_resort_block
      { name := nm, specs := [s0, s1, s2, s3, s4, s5] ++ srest,
        elevation := [e0, e1, e2] ++ erest, levels := [l0, l1, l2] ++ lrest,
        website := w, trail_map := t } =
    .ok { name := nm, length := v0, total_trails_length := v1, area := v2,
          gondolas := v3, chairs := v4, trails := v5,
          max_elevation := m0, base_elevation := m2, vertical := m1,
          beginner_pct := (p0 : Rat) / 100, intermediate_pct := (p1 : Rat) / 100,
          advanced_pct := (p2 : Rat) / 100, website := w, trail_map := t } := by
  simp [parse_ski_resort_block, getIdx, h0, h1, h2, h3, h4, h5, he0, he1, he2,
    hl0, hl1, hl2, Bind.bind, Except.bind, pure, Except.pure, List.take]

theorem parse_block_ok_lengths {b : ResortBlock} {r : ParsedRecord}
    (h : parse_ski_resort_block b = .ok r) :
    6 ≤ b.specs.length ∧ 3 ≤ b.elevation.length ∧ 3 ≤ b.levels.length := by
  unfold parse_ski_resort_block at h
  simp only [exceptBind_eq_ok, exceptPure_eq_ok] at h
  obtain ⟨s0, hs0, v0, hv0, s1, hs1, v1, hv1, s2, hs2, v2, hv2, s3, hs3, v3, hv3,
    s4, hs4, v4, hv4, s5, hs5, v5, hv5, e0, he0, m0, hm0, e2, he2, m2, hm2,
    e1, he1, m1, hm1, l0, hl0, p0, hp0, l1, hl1, p1, hp1, l2, hl2, p2, hp2, hfin⟩ := h
  have hlen5 := getIdx_ok_lt hs5
  have hlen2 := getIdx_ok_lt he2
  have hlev2 := getIdx_ok_lt hl2
  simp [List.length_take] at hlen5
  omega

theorem parse_block_short_not_ok {b : ResortBlock}
    (hshort : b.specs.length < 6 ∨ b.elevation.length < 3 ∨ b.levels.length < 3) :
    ∀ r, parse_ski_resort_block b ≠ .ok r := by
  intro r h
  have := parse_block_ok_lengths h
  omega

theorem parse_info_error_of_mem {blocks : List ResortBlock} {b : ResortBlock}
    (hmem : b ∈ blocks) (hbad : ∀ r, parse_ski_resort_block b ≠ .ok r) :
    ∃ e, parse_ski_resort_info blocks = .error e := by
  induction blocks with
  | nil => cases hmem
  | cons hd tl ih =>
    cases hmem with
    | head =>
      cases hp : parse_ski_resort_block b with
      | error e => exact ⟨e, by simp [parse_ski_resort_info, hp, Bind.bind, Except.bind]⟩
      | ok r => exact absurd hp (hbad r)
    | tail _ hmem2 =>
      obtain ⟨e, he⟩ := ih hmem2
      cases hp : parse_ski_resort_block hd with
      | error e2 => exact ⟨e2, by simp [parse_ski_resort_info, hp, Bind.bind, Except.bind]⟩
      | ok r => exact ⟨e, by simp [parse_ski_resort_info, hp, he, Bind.bind, Except.bind]⟩

theorem parse_block_ok_elevation {b : ResortBlock} {r : ParsedRecord}
    (h : parse_ski_resort_block b = .ok r) :
    ∃ e0 e1 e2, b.elevation[0]? = some e0 ∧ b.elevation[1]? = some e1 ∧
      b.elevation[2]? = some e2 ∧ toIntStripped e0 = .ok r.max_elevation ∧
      toIntStripped e1 = .ok r.vertical ∧ toIntStripped e2 = .ok r.base_elevation := by
  unfold parse_ski_resort_block at h
  simp only [exceptBind_eq_ok, exceptPure_eq_ok, getIdx_ok_iff] at h
  obtain ⟨s0, hs0, v0, hv0, s1, hs1, v1, hv1, s2, hs2, v2, hv2, s3, hs3, v3, hv3,
    s4, hs4, v4, hv4, s5, hs5, v5, hv5, e0, he0, m0, hm0, e2, he2, m2, hm2,
    e1, he1, m1, hm1, l0, hl0, p0, hp0, l1, hl1, p1, hp1, l2, hl2, p2, hp2, hfin⟩ := h
  subst hfin
  exact ⟨e0, e1, e2, he0, he1, he2, hm0, hm1, hm2⟩

/-- C2: for every resort block, the parser extracts exactly the first six
numeric spec values in fixed positional order mapped to
`(length, total_trails_length, area, gondolas, chairs, trails)` with commas
stripped before integer conversion (`toIntStripped`), maps the elevation
list positionally (index 0 to `max_elevation`, index 1 to `vertical`,
index 2 to `base_elevation`, commas stripped), and converts the first three
difficulty-level values, in order beginner/intermediate/advanced, to
fractions by integer parsing followed by division by 100. -/
theorem claim_C2_parser_positional_extraction (nm w t : Option String)
    (s0 s1 s2 s3 s4 s5 : String) (srest : List String)
    (e0 e1 e2 : String) (erest : List String)
    (l0 l1 l2 : String) (lrest : List String)
    (v0 v1 v2 v3 v4 v5 m0 m1 m2 p0 p1 p2 : Int)
    (h0 : toIntStripped s0 = .ok v0) (h1 : toIntStripped s1 = .ok v1)
    (h2 : toIntStripped s2 = .ok v2) (h3 : toIntStripped s3 = .ok v3)
    (h4 : toIntStripped s4 = .ok v4) (h5 : toIntStripped s5 = .ok v5)
    (he0 : toIntStripped e0 = .ok m0) (he1 : toIntStripped e1 = .ok m1)
    (he2 : toIntStripped e2 = .ok m2)
    (hl0 : toIntRaw l0 = .ok p0) (hl1 : toIntRaw l1 = .ok p1)
    (hl2 : toIntRaw l2 = .ok p2) :
    parse_ski_resort_block
      { name := nm, specs := [s0, s1, s2, s3, s4, s5] ++ srest,
        elevation := [e0, e1, e2] ++ erest, levels := [l0, l1, l2] ++ lrest,
        website := w, trail_map := t } =
    .ok { name := nm, length := v0, total_trails_length := v1, area := v2,
          gondolas := v3, chairs := v4, trails := v5,
          max_elevation := m0, base_elevation := m2, vertical := m1,
          beginner_pct := (p0 : Rat) / 100, intermediate_pct := (p1 : Rat) / 100,
          advanced_pct := (p2 : Rat) / 100, website := w, trail_map := t } :=
  parse_block_eval nm w t s0 s1 s2 s3 s4 s5 srest e0 e1 e2 erest l0 l1 l2 lrest
    v0 v1 v2 v3 v4 v5 m0 m1 m2 p0 p1 p2 h0 h1 h2 h3 h4 h5 he0 he1 he2 hl0 hl1 hl2

/-- C2 witness: the concrete Goryu block (with thousands separators and
surplus list entries) parses to exactly the expected record. -/
theorem claim_C2_witness :
    parse_ski_resort_block blockGoryu = .ok recordGoryu :=
  claim_C2_parser_positional_extraction
    (some "Hakuba Goryu Snow Resort") (some "https://example.com/goryu")
    (some "https://example.com/goryu-map")
    "5,000" "20,000" "100" "2" "3" "10" ["ignored"]
    "1,000" "800" "200" ["ignored"] "50" "30" "20" ["ignored"]
    5000 20000 100 2 3 10 1000 800 200 50 30 20
    (by decide) (by decide) (by decide) (by decide) (by decide) (by decide)
    (by decide) (by decide) (by decide) (by decide) (by decide) (by decide)

/-- C5 (as amended): the parser copies `vertical` from elevation index 1 and
does not enforce the invariant; a successfully parsed record satisfies
`vertical = max_elevation - base_elevation` exactly when the three
elevation strings of the block parse to values `m0, m1, m2` with
`m1 = m0 - m2`. -/
theorem claim_C5_amended_vertical_iff_source {b : ResortBlock} {r : ParsedRecord}
    (h : parse_ski_resort_block b = .ok r) :
    r.vertical = r.max_elevation - r.base_elevation ↔
      ∃ e0 e1 e2 m0 m1 m2, b.elevation[0]? = some e0 ∧ b.elevation[1]? = some e1 ∧
        b.elevation[2]? = some e2 ∧ toIntStripped e0 = .ok m0 ∧
        toIntStripped e1 = .ok m1 ∧ toIntStripped e2 = .ok m2 ∧ m1 = m0 - m2 := by
  obtain ⟨e0, e1, e2, he0, he1, he2, hm0, hm1, hm2⟩ := parse_block_ok_elevation h
  constructor
  · intro hv
    exact ⟨e0, e1, e2, r.max_elevation, r.vertical, r.base_elevation,
      he0, he1, he2, hm0, hm1, hm2, hv⟩
  · rintro ⟨f0, f1, f2, n0, n1, n2, hf0, hf1, hf2, hn0, hn1, hn2, hrel⟩
    rw [he0] at hf0
    rw [he1] at hf1
    rw [he2] at hf2
    cases Option.some.inj hf0
    cases Option.some.inj hf1
    cases Option.some.inj hf2
    rw [hm0] at hn0
    rw [hm1] at hn1
    rw [hm2] at hn2
    cases Except.ok.inj hn0
    cases Except.ok.inj hn1
    cases Except.ok.inj hn2
    exact hrel

/-- C5 witness: the good Goryu block (1000 / 800 / 200) parses to a record
satisfying the vertical invariant. -/
theorem claim_C5_witness :
    recordGoryu.vertical = recordGoryu.max_elevation - recordGoryu.base_elevation :=
  (@claim_C5_amended_vertical_iff_source blockGoryu recordGoryu (by rfl)).mpr
    ⟨"1,000", "800", "200", 1000, 800, 200, by decide, by decide, by decide,
      by decide, by decide, by decide, by decide⟩

/-- C5 counterexample: the parsing/derivation pipeline accepts a block whose
elevation list reads 1000 / 500 / 200 and produces a row with
`vertical = 500 ≠ 1000 - 200`; the invariant is not enforced by the code. -/
theorem claim_C5_counterexample :
    (get_resort_info [blockBadVertical]).toOption.map
        (fun t => t.map fun r => (r.vertical, r.max_elevation, r.base_elevation)) =
      some [(500, 1000, 200)] ∧ ¬ ((500 : Int) = 1000 - 200) := by
  decide

/-- C7: if any block of the input has fewer than six spec values, fewer than
three elevation values, or fewer than three difficulty-level values, the
whole parse aborts with an error (and so does the surrounding
`get_resort_info` pipeline): no table is returned and no defaults are
substituted. -/
theorem claim_C7_short_block_aborts_parse {blocks : List ResortBlock} {b : ResortBlock}
    (hmem : b ∈ blocks)
    (hshort : b.specs.length < 6 ∨ b.elevation.length < 3 ∨ b.levels.length < 3) :
    (∃ e, parse_ski_resort_info blocks = .error e) ∧
      ∃ e, get_resort_info blocks = .error e := by
  obtain ⟨e, he⟩ := parse_info_error_of_mem hmem (parse_block_short_not_ok hshort)
  exact ⟨⟨e, he⟩, ⟨e, by simp [get_resort_info, he]⟩⟩

/-- C7 witness: a list whose second block has only four spec values makes the
whole parse fail. -/
theorem claim_C7_witness :
    (∃ e, parse_ski_resort_info [blockGoryu, blockShortSpecs] = .error e) ∧
      ∃ e, get_resort_info [blockGoryu, blockShortSpecs] = .error e :=
  @claim_C7_short_block_aborts_parse [blockGoryu, blockShortSpecs] blockShortSpecs
    (by decide) (by decide)
/-! ### Merger helper lemmas -/

theorem mem_setRow_self (df : Table) (n : String) (r : Row) : r ∈ setRow df n r := by
  unfold setRow
  split
  · next hany =>
    obtain ⟨row, hrow, hname⟩ := List.any_eq_true.mp hany
    exact List.mem_map.mpr ⟨row, hrow, by simp [hname]⟩
  · exact List.mem_append.mpr (Or.inr (by simp))

theorem setRow_eq_append {df : Table} {n : String} {r : Row}
    (hnone : ∀ row ∈ df, ¬ row.name = some n) : setRow df n r = df ++ [r] := by
  unfold setRow
  rw [if_neg]
  intro hany
  obtain ⟨row, hrow, hname⟩ := List.any_eq_true.mp hany
  exact hnone row hrow (by simpa using hname)

theorem mem_setRow_elim {df : Table} {n : String} {r x : Row}
    (hx : x ∈ setRow df n r) : x = r ∨ (x ∈ df ∧ ¬ x.name = some n) := by
  unfold setRow at hx
  by_cases hany : (df.any fun row => row.name == some n) = true
  · rw [if_pos hany] at hx
    obtain ⟨row, hrow, hmap⟩ := List.mem_map.mp hx
    by_cases hn : (row.name == some n) = true
    · left
      rw [if_pos hn] at hmap
      exact hmap.symm
    · right
      rw [if_neg hn] at hmap
      subst hmap
      exact ⟨hrow, by simpa using hn⟩
  · rw [if_neg hany] at hx
    rcases List.mem_append.mp hx with hdf | hr
    · right
      refine ⟨hdf, fun heq => hany (List.any_eq_true.mpr ⟨x, hdf, by simp [heq]⟩)⟩
    · left
      simpa using hr

theorem combine_resorts_ok_shape {df : Table} (rm : Bool)
    (hcond : ((rowsNamed df "Goryu").isEmpty || (rowsNamed df "Hakuba 47").isEmpty) = false) :
    combine_resorts df rm =
      (.ok (List.insertionSort areaRel
          (if rm then
            (setRow df "Hakuba 47 + Goryu"
              (combinedSeries (rowsNamed df "Goryu" ++ rowsNamed df "Hakuba 47"))).filter
              (fun r => !(r.name == some "Hakuba 47" || r.name == some "Goryu"))
          else
            setRow df "Hakuba 47 + Goryu"
              (combinedSeries (rowsNamed df "Goryu" ++ rowsNamed df "Hakuba 47")))),
        setRow df "Hakuba 47 + Goryu"
          (combinedSeries (rowsNamed df "Goryu" ++ rowsNamed df "Hakuba 47"))) := by
  simp [combine_resorts, hcond]

theorem combinedSeries_pair (g h : Row) :
    combinedSeries [g, h] =
      { name := some "Hakuba 47 + Goryu"
        length := max g.length h.length
        total_trails_length := g.total_trails_length + h.total_trails_length
        area := g.area + h.area
        gondolas := g.gondolas + h.gondolas
        chairs := g.chairs + h.chairs
        trails := g.trails + h.trails
        max_elevation := max g.max_elevation h.max_elevation
        base_elevation := min g.base_elevation h.base_elevation
        vertical := max g.max_elevation h.max_elevation - min g.base_elevation h.base_elevation
        beginner_pct := (g.beginner_trails + h.beginner_trails) / ((g.trails + h.trails : Int) : Rat)
        intermediate_pct := (g.intermediate_trails + h.intermediate_trails) / ((g.trails + h.trails : Int) : Rat)
        advanced_pct := (g.advanced_trails + h.advanced_trails) / ((g.trails + h.trails : Int) : Rat)
        website := none
        trail_map := none
        beginner_trails := g.beginner_trails + h.beginner_trails
        intermediate_trails := g.intermediate_trails + h.intermediate_trails
        advanced_trails := g.advanced_trails + h.advanced_trails } := by
  simp [combinedSeries, maxOver, minOver, sumOverInt, sumOverRat]
/-- C4: if either named resort is absent from the table, the merge fails
with `MissingResortError` instead of returning a table, and the
caller-visible input table is left unchanged by the failed merge. -/
theorem claim_C4_missing_resort_error (df : Table) (rm : Bool)
    (habs : rowsNamed df "Goryu" = [] ∨ rowsNamed df "Hakuba 47" = []) :
    combine_resorts df rm = (.error .missingResort, df) := by
  have hcond : ((rowsNamed df "Goryu").isEmpty || (rowsNamed df "Hakuba 47").isEmpty) = true := by
    rcases habs with h | h <;> simp [h]
  simp [combine_resorts, hcond]

/-- C4 witness: merging a table holding only the Goryu row fails with
`MissingResortError` and returns the table unchanged. -/
theorem claim_C4_witness :
    combine_resorts [rowGoryu] true = (.error .missingResort, [rowGoryu]) :=
  claim_C4_missing_resort_error [rowGoryu] true (Or.inr (by decide))

/-- C3 (as amended): the merger returns a new table, but the caller-visible
input frame is mutated by the in-place insertion of the merged record: after
a successful merge (with the merged label fresh) the input table has gained
exactly one row — the merged record — while every original row is still
present; this happens for either value of the removal flag, and the removal
of the constituents and the re-sorting affect only the returned table. -/
theorem claim_C3_amended_merge_mutates_input (df : Table) (rm : Bool)
    (hg : rowsNamed df "Goryu" ≠ []) (hh : rowsNamed df "Hakuba 47" ≠ [])
    (hfresh : ∀ row ∈ df, ¬ row.name = some "Hakuba 47 + Goryu") :
    (combine_resorts df rm).2.length = df.length + 1 ∧
      (∀ row ∈ df, row ∈ (combine_resorts df rm).2) ∧
      ∃ c ∈ (combine_resorts df rm).2, c.name = some "Hakuba 47 + Goryu" := by
  have hcond : ((rowsNamed df "Goryu").isEmpty || (rowsNamed df "Hakuba 47").isEmpty) = false := by
    simp [List.isEmpty_iff, hg, hh]
  have h2 : (combine_resorts df rm).2 =
      df ++ [combinedSeries (rowsNamed df "Goryu" ++ rowsNamed df "Hakuba 47")] := by
    rw [combine_resorts_ok_shape rm hcond]
    exact setRow_eq_append hfresh
  rw [h2]
  refine ⟨by simp, fun row hrow => List.mem_append.mpr (Or.inl hrow),
    ⟨combinedSeries (rowsNamed df "Goryu" ++ rowsNamed df "Hakuba 47"),
      List.mem_append.mpr (Or.inr (by simp)), rfl⟩⟩

/-- C3 witness: on the two-row fixture of the spec, a merge with removal
leaves the frame of the caller with three rows — the two originals plus the merged
record. -/
theorem claim_C3_witness :
    (combine_resorts fixtureTable true).2.length = fixtureTable.length + 1 ∧
      (∀ row ∈ fixtureTable, row ∈ (combine_resorts fixtureTable true).2) ∧
      ∃ c ∈ (combine_resorts fixtureTable true).2, c.name = some "Hakuba 47 + Goryu" :=
  claim_C3_amended_merge_mutates_input fixtureTable true (by decide) (by decide) (by decide)

/-- C3 counterexample: the merger is not free of caller-visible mutation: on
the fixture of the spec the input frame it was given holds two rows before the
call and three rows (the merged record appended) after it. -/
theorem claim_C3_counterexample :
    fixtureTable.map (fun r => r.name) = [some "Goryu", some "Hakuba 47"] ∧
      (combine_resorts fixtureTable true).2.map (fun r => r.name) =
        [some "Goryu", some "Hakuba 47", some "Hakuba 47 + Goryu"] ∧
      ¬ (combine_resorts fixtureTable true).2.length = fixtureTable.length := by
  decide

/-- C10: whenever the merge succeeds, the output table contains a row named
"Hakuba 47 + Goryu", and every row so named has absent (`none`) `website`
and `trail_map` values: the two optional URL fields are not part of the
aggregation policy and are dropped rather than taken from either
constituent. -/
theorem claim_C10_merged_row_urls_absent {df : Table} {rm : Bool} {t : Table}
    (hok : (combine_resorts df rm).1 = .ok t) :
    (∃ c ∈ t, c.name = some "Hakuba 47 + Goryu") ∧
      ∀ c ∈ t, c.name = some "Hakuba 47 + Goryu" →
        c.website = none ∧ c.trail_map = none := by
  by_cases hcond : ((rowsNamed df "Goryu").isEmpty || (rowsNamed df "Hakuba 47").isEmpty) = true
  · exfalso
    have herr : combine_resorts df rm = (.error .missingResort, df) := by
      simp [combine_resorts, hcond]
    rw [herr] at hok
    exact absurd hok (by simp)
  · have hcond2 : ((rowsNamed df "Goryu").isEmpty || (rowsNamed df "Hakuba 47").isEmpty) = false :=
      Bool.eq_false_iff.mpr hcond
    rw [combine_resorts_ok_shape rm hcond2] at hok
    have ht : t = List.insertionSort areaRel
        (if rm then
          (setRow df "Hakuba 47 + Goryu"
            (combinedSeries (rowsNamed df "Goryu" ++ rowsNamed df "Hakuba 47"))).filter
            (fun r => !(r.name == some "Hakuba 47" || r.name == some "Goryu"))
        else
          setRow df "Hakuba 47 + Goryu"
            (combinedSeries (rowsNamed df "Goryu" ++ rowsNamed df "Hakuba 47"))) := by
      simpa using hok.symm
    subst ht
    constructor
    · refine ⟨combinedSeries (rowsNamed df "Goryu" ++ rowsNamed df "Hakuba 47"), ?_, rfl⟩
      rw [(List.perm_insertionSort areaRel _).mem_iff]
      cases rm
      · simpa using mem_setRow_self df "Hakuba 47 + Goryu" _
      · simp only [if_true]
        exact List.mem_filter.mpr ⟨mem_setRow_self df "Hakuba 47 + Goryu" _,
          by simp [combinedSeries]⟩
    · intro c hc hname
      have hc2 := ((List.perm_insertionSort areaRel _).mem_iff).mp hc
      have hc3 : c ∈ setRow df "Hakuba 47 + Goryu"
          (combinedSeries (rowsNamed df "Goryu" ++ rowsNamed df "Hakuba 47")) := by
        cases rm
        · simpa using hc2
        · have h4 := hc2
          simp at h4
          exact h4.1
      rcases mem_setRow_elim hc3 with heq | ⟨_, hne⟩
      · subst heq
        exact ⟨rfl, rfl⟩
      · exact absurd hname hne

/-- C10 witness: on the fixture of the spec, the merged output is the single row
named "Hakuba 47 + Goryu" and that row carries no URL values. -/
theorem claim_C10_witness :
    (∃ c ∈ [combinedSeries [rowGoryu, rowH47]], c.name = some "Hakuba 47 + Goryu") ∧
      ∀ c ∈ [combinedSeries [rowGoryu, rowH47]], c.name = some "Hakuba 47 + Goryu" →
        c.website = none ∧ c.trail_map = none :=
  @claim_C10_merged_row_urls_absent fixtureTable true
    [combinedSeries [rowGoryu, rowH47]] (by rfl)

/-- C1: for every table containing exactly one row named "Goryu" and one
named "Hakuba 47", the merger produces a combined record whose `length` and
`max_elevation` are the max of the two constituents; whose
`total_trails_length`, `area`, `gondolas`, `chairs`, `trails` and three
`*_trails` fields are the sum of the two; whose `base_elevation` is the min
of the two; whose `vertical` is the combined `max_elevation` minus the
combined `base_elevation`; and whose `*_pct` fields equal the corresponding
combined `*_trails` divided by the combined `trails`.  On the concrete
fixture of the spec, merging with removal yields area=150, trails=15,
max_elevation=1000, base_elevation=200, vertical=800, gondolas=3, chairs=5,
and both source rows are absent from the output. -/
theorem claim_C1_merge_aggregation :
    (∀ (df : Table) (g h : Row) (rm : Bool),
      rowsNamed df "Goryu" = [g] → rowsNamed df "Hakuba 47" = [h] →
      ∃ t, (combine_resorts df rm).1 = .ok t ∧
        ∃ c, c ∈ t ∧ c.name = some "Hakuba 47 + Goryu" ∧
          c.length = max g.length h.length ∧
          c.max_elevation = max g.max_elevation h.max_elevation ∧
          c.total_trails_length = g.total_trails_length + h.total_trails_length ∧
          c.area = g.area + h.area ∧
          c.gondolas = g.gondolas + h.gondolas ∧
          c.chairs = g.chairs + h.chairs ∧
          c.trails = g.trails + h.trails ∧
          c.beginner_trails = g.beginner_trails + h.beginner_trails ∧
          c.intermediate_trails = g.intermediate_trails + h.intermediate_trails ∧
          c.advanced_trails = g.advanced_trails + h.advanced_trails ∧
          c.base_elevation = min g.base_elevation h.base_elevation ∧
          c.vertical = c.max_elevation - c.base_elevation ∧
          c.beginner_pct = c.beginner_trails / (c.trails : Rat) ∧
          c.intermediate_pct = c.intermediate_trails / (c.trails : Rat) ∧
          c.advanced_pct = c.advanced_trails / (c.trails : Rat)) ∧
    ((combine_resorts fixtureTable true).1.toOption.map (fun t => t.map fun r =>
        (r.name, r.area, r.trails, r.gondolas, r.chairs)) =
      some [(some "Hakuba 47 + Goryu", 150, 15, 3, 5)]) ∧
    ((combine_resorts fixtureTable true).1.toOption.map (fun t => t.map fun r =>
        (r.max_elevation, r.base_elevation, r.vertical)) =
      some [(1000, 200, 800)]) := by
  refine ⟨?_, by decide, by decide⟩
  intro df g h rm hg hh
  have hcond : ((rowsNamed df "Goryu").isEmpty || (rowsNamed df "Hakuba 47").isEmpty) = false := by
    simp [hg, hh]
  rw [combine_resorts_ok_shape rm hcond]
  refine ⟨_, rfl, ?_⟩
  refine ⟨combinedSeries (rowsNamed df "Goryu" ++ rowsNamed df "Hakuba 47"), ?_, ?_⟩
  · rw [(List.perm_insertionSort areaRel _).mem_iff]
    cases rm
    · simpa using mem_setRow_self df "Hakuba 47 + Goryu" _
    · simp only [if_true]
      exact List.mem_filter.mpr ⟨mem_setRow_self df "Hakuba 47 + Goryu" _,
        by simp [combinedSeries]⟩
  · rw [hg, hh, show ([g] ++ [h] : Table) = [g, h] from rfl, combinedSeries_pair]
    exact ⟨rfl, rfl, rfl, rfl, rfl, rfl, rfl, rfl, rfl, rfl, rfl, rfl, rfl, rfl, rfl, rfl⟩

/-- C1 witness: the general aggregation statement applied to the concrete
fixture table of the spec. -/
theorem claim_C1_witness :
    ∃ t, (combine_resorts fixtureTable true).1 = .ok t ∧
      ∃ c, c ∈ t ∧ c.name = some "Hakuba 47 + Goryu" ∧
        c.length = max rowGoryu.length rowH47.length ∧
        c.max_elevation = max rowGoryu.max_elevation rowH47.max_elevation ∧
        c.total_trails_length = rowGoryu.total_trails_length + rowH47.total_trails_length ∧
        c.area = rowGoryu.area + rowH47.area ∧
        c.gondolas = rowGoryu.gondolas + rowH47.gondolas ∧
        c.chairs = rowGoryu.chairs + rowH47.chairs ∧
        c.trails = rowGoryu.trails + rowH47.trails ∧
        c.beginner_trails = rowGoryu.beginner_trails + rowH47.beginner_trails ∧
        c.intermediate_trails = rowGoryu.intermediate_trails + rowH47.intermediate_trails ∧
        c.advanced_trails = rowGoryu.advanced_trails + rowH47.advanced_trails ∧
        c.base_elevation = min rowGoryu.base_elevation rowH47.base_elevation ∧
        c.vertical = c.max_elevation - c.base_elevation ∧
        c.beginner_pct = c.beginner_trails / (c.trails : Rat) ∧
        c.intermediate_pct = c.intermediate_trails / (c.trails : Rat) ∧
        c.advanced_pct = c.advanced_trails / (c.trails : Rat) :=
  claim_C1_merge_aggregation.1 fixtureTable rowGoryu rowH47 true (by rfl) (by rfl)
/-! ### Normalizer helper lemmas -/

theorem replaceAllAux_no_occur {pat repl : List Char} :
    ∀ (fuel : Nat) (s : List Char), occursIn pat s = false →
      replaceAllAux pat repl fuel s = s := by
  intro fuel
  induction fuel with
  | zero =>
    intro s h
    cases s <;> rfl
  | succ fuel ih =>
    intro s h
    cases s with
    | nil => rfl
    | cons c rest =>
      simp only [occursIn, Bool.or_eq_false_iff] at h
      simp only [replaceAllAux]
      rw [if_neg]
      · rw [ih rest h.2]
      · simp [h.1]

theorem replaceAll_no_occur {pat repl s : List Char} (h : occursIn pat s = false) :
    replaceAll pat repl s = s :=
  replaceAllAux_no_occur s.length s h

theorem foldl_removals_no_occur {s : List Char} {pats : List (List Char)}
    (h : ∀ p ∈ pats, occursIn p s = false) :
    pats.foldl (fun t pat => replaceAll pat [] t) s = s := by
  induction pats with
  | nil => rfl
  | cons p ps ih =>
    simp only [List.foldl_cons]
    rw [replaceAll_no_occur (h p (by simp))]
    exact ih fun q hq => h q (List.mem_cons_of_mem p hq)

/-- C6 (as amended): the normalizer is idempotent on every input whose
normal form either contains no occurrence of any removal substring and no
"47" (so that a second pass finds nothing to rewrite), or is exactly
"Hakuba 47" (which a second pass rewrites to "47" and back); it is not
idempotent on arbitrary strings. -/
theorem claim_C6_amended_normalize_idempotent (x : List Char)
    (hx : ((∀ pat ∈ removalPats, occursIn pat (normalizeChars x) = false) ∧
        occursIn "47".toList (normalizeChars x) = false) ∨
      normalizeChars x = "Hakuba 47".toList) :
    normalizeChars (normalizeChars x) = normalizeChars x := by
  rcases hx with ⟨hpats, h47⟩ | hfix
  · generalize hz : normalizeChars x = z at hpats h47 ⊢
    show normalizeChars z = z
    unfold normalizeChars
    rw [foldl_removals_no_occur hpats, replaceAll_no_occur h47]
  · rw [hfix]
    decide

/-- C6 witness: idempotence on the names the pipeline encounters, e.g.
"Goryu" and the raw "Hakuba 47 Winter Sports". -/
theorem claim_C6_witness :
    normalizeChars (normalizeChars "Goryu".toList) = normalizeChars "Goryu".toList ∧
      normalizeChars (normalizeChars "Hakuba 47 Winter Sports".toList) =
        normalizeChars "Hakuba 47 Winter Sports".toList :=
  ⟨claim_C6_amended_normalize_idempotent _ (Or.inl (by decide)),
    claim_C6_amended_normalize_idempotent _ (Or.inr (by decide))⟩

/-- C6 counterexample: the normalizer is not idempotent on every string:
removing "Hakuba " from " ResoHakuba rt" creates the new substring
" Resort", which only the second pass removes, so one application yields
" Resort" and two applications yield the empty string. -/
theorem claim_C6_counterexample :
    normalizeName " ResoHakuba rt" = " Resort" ∧
      normalizeName (normalizeName " ResoHakuba rt") = "" ∧
      ¬ normalizeName (normalizeName " ResoHakuba rt") =
          normalizeName " ResoHakuba rt" := by
  decide
/-! ### Sortedness -/

theorem chain_of_sorted {t : Table} (h : List.Sorted areaRel t) : List.Chain' areaRel t :=
  List.Pairwise.chain' h

/-- C8: every table the pipeline produces — the parsed/derived table of
`get_resort_info` and the post-merge table of `combine_resorts` — is sorted
non-ascending by `area`: for every pair of consecutive rows the area of
the earlier row is at least the area of the later row (`areaRel`). -/
theorem claim_C8_tables_sorted_by_area :
    (∀ (blocks : List ResortBlock) (t : Table),
        get_resort_info blocks = .ok t → List.Chain' areaRel t) ∧
    (∀ (df : Table) (rm : Bool) (t : Table),
        (combine_resorts df rm).1 = .ok t → List.Chain' areaRel t) := by
  constructor
  · intro blocks t hok
    unfold get_resort_info at hok
    cases hp : parse_ski_resort_info blocks with
    | error e =>
      rw [hp] at hok
      exact absurd hok (by simp)
    | ok records =>
      rw [hp] at hok
      have ht : t = List.insertionSort areaRel
          ((records.map fun r => { r with name := r.name.map normalizeName }).map rowOfRecord) := by
        simpa using hok.symm
      subst ht
      exact chain_of_sorted (List.sorted_insertionSort areaRel _)
  · intro df rm t hok
    by_cases hcond : ((rowsNamed df "Goryu").isEmpty || (rowsNamed df "Hakuba 47").isEmpty) = true
    · exfalso
      have herr : combine_resorts df rm = (.error .missingResort, df) := by
        simp [combine_resorts, hcond]
      rw [herr] at hok
      exact absurd hok (by simp)
    · have hcond2 : ((rowsNamed df "Goryu").isEmpty ||
          (rowsNamed df "Hakuba 47").isEmpty) = false := Bool.eq_false_iff.mpr hcond
      rw [combine_resorts_ok_shape rm hcond2] at hok
      have ht : t = List.insertionSort areaRel
          (if rm then
            (setRow df "Hakuba 47 + Goryu"
              (combinedSeries (rowsNamed df "Goryu" ++ rowsNamed df "Hakuba 47"))).filter
              (fun r => !(r.name == some "Hakuba 47" || r.name == some "Goryu"))
          else
            setRow df "Hakuba 47 + Goryu"
              (combinedSeries (rowsNamed df "Goryu" ++ rowsNamed df "Hakuba 47"))) := by
        simpa using hok.symm
      subst ht
      exact chain_of_sorted (List.sorted_insertionSort areaRel _)

/-- C8 witness: the sortedness statement applied to a one-block parse and to
the fixture merge. -/
theorem claim_C8_witness :
    List.Chain' areaRel [rowOfRecord { recordGoryu with name := some "Goryu" }] ∧
      List.Chain' areaRel [combinedSeries [rowGoryu, rowH47]] :=
  ⟨claim_C8_tables_sorted_by_area.1 [blockGoryu]
      [rowOfRecord { recordGoryu with name := some "Goryu" }] (by rfl),
    claim_C8_tables_sorted_by_area.2 fixtureTable true
      [combinedSeries [rowGoryu, rowH47]] (by rfl)⟩
/-! ### CSV helper lemmas -/

theorem splitOnChar_ne_nil (sep : Char) (s : List Char) : splitOnChar sep s ≠ [] := by
  cases s with
  | nil => simp [splitOnChar]
  | cons c rest =>
    simp only [splitOnChar]
    cases h : splitOnChar sep rest with
    | nil => simp
    | cons part parts =>
      by_cases hc : c = sep <;> simp [hc]

theorem splitOnChar_no_sep {sep : Char} {p : List Char} (h : sep ∉ p) :
    splitOnChar sep p = [p] := by
  induction p with
  | nil => rfl
  | cons c rest ih =>
    have hc : ¬ c = sep := fun e => h (e ▸ List.mem_cons_self c rest)
    have hrest : sep ∉ rest := fun e => h (List.mem_cons_of_mem c e)
    simp only [splitOnChar, ih hrest]
    simp [hc]

theorem splitOnChar_append {sep : Char} {p t : List Char} (h : sep ∉ p) :
    splitOnChar sep (p ++ sep :: t) = p :: splitOnChar sep t := by
  induction p with
  | nil =>
    simp only [List.nil_append, splitOnChar]
    cases hsp : splitOnChar sep t with
    | nil => exact absurd hsp (splitOnChar_ne_nil sep t)
    | cons part parts => simp
  | cons c rest ih =>
    have hc : ¬ c = sep := fun e => h (e ▸ List.mem_cons_self c rest)
    have hrest : sep ∉ rest := fun e => h (List.mem_cons_of_mem c e)
    show splitOnChar sep (c :: (rest ++ sep :: t)) = (c :: rest) :: splitOnChar sep t
    simp only [splitOnChar]
    rw [ih hrest]
    simp [hc]

theorem splitOnChar_joinWith {sep : Char} :
    ∀ parts : List (List Char), parts ≠ [] → (∀ p ∈ parts, sep ∉ p) →
      splitOnChar sep (joinWith sep parts) = parts
  | [], hne, _ => absurd rfl hne
  | [p], _, hall => by
    simp only [joinWith]
    exact splitOnChar_no_sep (hall p (by simp))
  | p :: q :: rest, _, hall => by
    simp only [joinWith]
    rw [splitOnChar_append (hall p (by simp))]
    rw [splitOnChar_joinWith (q :: rest) (by simp)
      (fun x hx => hall x (List.mem_cons_of_mem p hx))]

theorem mem_joinWith {sep c : Char} :
    ∀ {parts : List (List Char)}, c ∈ joinWith sep parts → c = sep ∨ ∃ p ∈ parts, c ∈ p
  | [], h => absurd h (by simp [joinWith])
  | [p], h => Or.inr ⟨p, by simp, by simpa [joinWith] using h⟩
  | p :: q :: rest, h => by
    simp only [joinWith, List.mem_append, List.mem_cons] at h
    rcases h with hp | hc | hrest
    · exact Or.inr ⟨p, by simp, hp⟩
    · exact Or.inl hc
    · rcases mem_joinWith hrest with hs | ⟨x, hx, hcx⟩
      · exact Or.inl hs
      · exact Or.inr ⟨x, List.mem_cons_of_mem p hx, hcx⟩

theorem natDigitsAux_mem {c : Char} :
    ∀ {fuel n : Nat}, c ∈ natDigitsAux fuel n → ∃ d, d < 10 ∧ c = Nat.digitChar d := by
  intro fuel
  induction fuel with
  | zero =>
    intro n h
    simp [natDigitsAux] at h
  | succ fuel ih =>
    intro n h
    simp only [natDigitsAux] at h
    by_cases hn : n < 10
    · rw [if_pos hn] at h
      simp at h
      exact ⟨n, hn, h⟩
    · rw [if_neg hn] at h
      rcases List.mem_append.mp h with h1 | h2
      · exact ih h1
      · simp at h2
        exact ⟨n % 10, Nat.mod_lt _ (by omega), h2⟩

theorem digit_not_sep : ∀ d, d < 10 → Nat.digitChar d ≠ ',' ∧ Nat.digitChar d ≠ '\n' := by
  decide

theorem intChars_no_newline {i : Int} : '\n' ∉ intChars i := by
  intro h
  unfold intChars natDigits at h
  split at h
  · rcases List.mem_cons.mp h with heq | h2
    · exact absurd heq (by decide)
    · obtain ⟨d, hd, he⟩ := natDigitsAux_mem h2
      exact (digit_not_sep d hd).2 he.symm
  · obtain ⟨d, hd, he⟩ := natDigitsAux_mem h
    exact (digit_not_sep d hd).2 he.symm

theorem ratChars_no_newline {q : Rat} : '\n' ∉ ratChars q := by
  intro h
  unfold ratChars at h
  rcases List.mem_append.mp h with h1 | h2
  · exact intChars_no_newline h1
  · rcases List.mem_cons.mp h2 with heq | h3
    · exact absurd heq (by decide)
    · obtain ⟨d, hd, he⟩ := natDigitsAux_mem (by simpa [natDigits] using h3)
      exact (digit_not_sep d hd).2 he.symm

theorem csvLine_no_newline {r : Row}
    (hname : '\n' ∉ optStr r.name) (hweb : '\n' ∉ optStr r.website)
    (hmap : '\n' ∉ optStr r.trail_map) : '\n' ∉ csvLine r := by
  intro h
  rcases mem_joinWith h with hs | ⟨p, hp, hcp⟩
  · exact absurd hs (by decide)
  · simp only [rowCells, List.mem_cons] at hp
    rcases hp with h1 | h1 | h1 | h1 | h1 | h1 | h1 | h1 | h1 | h1 | h1 | h1 | h1 | h1 | h1 | h1 | h1 | h1 | h1
    · exact hname (h1 ▸ hcp)
    · exact intChars_no_newline (h1 ▸ hcp)
    · exact intChars_no_newline (h1 ▸ hcp)
    · exact intChars_no_newline (h1 ▸ hcp)
    · exact intChars_no_newline (h1 ▸ hcp)
    · exact intChars_no_newline (h1 ▸ hcp)
    · exact intChars_no_newline (h1 ▸ hcp)
    · exact intChars_no_newline (h1 ▸ hcp)
    · exact intChars_no_newline (h1 ▸ hcp)
    · exact intChars_no_newline (h1 ▸ hcp)
    · exact ratChars_no_newline (h1 ▸ hcp)
    · exact ratChars_no_newline (h1 ▸ hcp)
    · exact ratChars_no_newline (h1 ▸ hcp)
    · exact hweb (h1 ▸ hcp)
    · exact hmap (h1 ▸ hcp)
    · exact ratChars_no_newline (h1 ▸ hcp)
    · exact ratChars_no_newline (h1 ▸ hcp)
    · exact ratChars_no_newline (h1 ▸ hcp)
    · simp at h1

theorem csvLine_headD {r : Row} (hname : ',' ∉ optStr r.name) :
    (splitOnChar ',' (csvLine r)).headD [] = optStr r.name := by
  have hline : csvLine r =
      optStr r.name ++ ',' :: joinWith ',' (rowCells r).tail := rfl
  rw [hline, splitOnChar_append hname]
  rfl

/-- C9: decoding the CSV text produced by `convert_to_csv` reproduces the
same number of data rows as the input table, with the resort name as the
leading column, the same name values, and the same row order — for every
table whose name cells contain no separator characters and whose URL cells
contain no newline (pandas would quote such cells; the model does not
cover quoting). -/
theorem claim_C9_csv_roundtrip (df : Table)
    (hcells : ∀ r ∈ df, ',' ∉ optStr r.name ∧ '\n' ∉ optStr r.name ∧
      '\n' ∉ optStr r.website ∧ '\n' ∉ optStr r.trail_map) :
    (decodeCsvRows (convert_to_csv df)).length = df.length ∧
      decodeCsvNames (convert_to_csv df) = df.map fun r => optStr r.name := by
  have hsplit : splitOnChar '\n' (convert_to_csv df) =
      (csvHeader :: df.map csvLine) ++ [[]] := by
    unfold convert_to_csv
    refine splitOnChar_joinWith _ (by simp) ?_
    intro p hp
    rcases List.mem_append.mp hp with hp1 | hp2
    · rcases List.mem_cons.mp hp1 with heq | hdata
      · subst heq
        decide
      · obtain ⟨r, hr, hline⟩ := List.mem_map.mp hdata
        obtain ⟨_, hn, hw, hm⟩ := hcells r hr
        exact hline ▸ csvLine_no_newline hn hw hm
    · simp at hp2
      subst hp2
      simp
  have hrows : decodeCsvRows (convert_to_csv df) = df.map csvLine := by
    unfold decodeCsvRows
    rw [hsplit, List.dropLast_concat]
    rfl
  constructor
  · rw [hrows, List.length_map]
  · unfold decodeCsvNames
    rw [hrows, List.map_map]
    refine List.map_congr_left ?_
    intro r hr
    exact csvLine_headD (hcells r hr).1

/-- C9 witness: the round-trip on the concrete two-row fixture table. -/
theorem claim_C9_witness :
    (decodeCsvRows (convert_to_csv fixtureTable)).length = fixtureTable.length ∧
      decodeCsvNames (convert_to_csv fixtureTable) =
        fixtureTable.map fun r => optStr r.name :=
  claim_C9_csv_roundtrip fixtureTable (by decide)
